import Mathlib

/-!
Verification of the triangle-to-triangle barycentric image mapper from
`2012-12-12-HTML5-Canvas-Image-Distortion/image-distortion-demo.js`.

Points are modelled as pairs of exact rationals (the JS code uses
two-element arrays of numbers); pixel stores are flat lists of naturals
addressed by `PIXEL_WIDTH * (x + y * width)`, mirroring HTML5 `ImageData`.
-/

namespace ImageDistortion

/-- A 2-vector, the embedding of the JS two-element arrays `[x, y]`. -/
abbrev Vec := ℚ × ℚ

/-- JS: `function add(v0, v1) { return [v0[0] + v1[0], v0[1] + v1[1]]; }` -/
def add (v0 v1 : Vec) : Vec := (v0.1 + v1.1, v0.2 + v1.2)

/-- JS: `function sub(v0, v1) { return [v0[0] - v1[0], v0[1] - v1[1]]; }` -/
def sub (v0 v1 : Vec) : Vec := (v0.1 - v1.1, v0.2 - v1.2)

/-- JS: `function dot(v0, v1) { return v0[0]*v1[0] + v0[1]*v1[1]; }` -/
def dot (v0 v1 : Vec) : ℚ := v0.1 * v1.1 + v0.2 * v1.2

/-- JS: `function mul(k, v) { return [k*v[0], k*v[1]]; }` -/
def mul (k : ℚ) (v : Vec) : Vec := (k * v.1, k * v.2)

/-- A triangle: the JS code passes a three-element array
`[triangle[0], triangle[1], triangle[2]]` of points. -/
structure Triangle where
  a : Vec
  b : Vec
  c : Vec

/-- The shared denominator `dot00 * dot11 - dot01 * dot01` computed by
`cartesian_to_barycentric`; it is zero exactly for degenerate triangles. -/
def denom (t : Triangle) : ℚ :=
  let v0 := sub t.c t.a
  let v1 := sub t.b t.a
  dot v0 v0 * dot v1 v1 - dot v0 v1 * dot v0 v1

/-- JS `cartesian_to_barycentric(triangle, xy)`.  The source computes
`invDenom = 1 / (dot00 * dot11 - dot01 * dot01)` and returns
`[u, v]`.  Over IEEE numbers a zero denominator makes `invDenom`
infinite and both returned components non-finite (`±Infinity`/`NaN`),
values on which every later ordered comparison is false; we model that
outcome as `none`, and the finite result as `some (u, v)`. -/
def cartesian_to_barycentric (triangle : Triangle) (xy : Vec) : Option Vec :=
  let a := triangle.a
  let b := triangle.b
  let c := triangle.c
  let v0 := sub c a
  let v1 := sub b a
  let v2 := sub xy a
  let dot00 := dot v0 v0
  let dot01 := dot v0 v1
  let dot02 := dot v0 v2
  let dot11 := dot v1 v1
  let dot12 := dot v1 v2
  if dot00 * dot11 - dot01 * dot01 = 0 then none
  else
    let invDenom := 1 / (dot00 * dot11 - dot01 * dot01)
    let u := (dot11 * dot02 - dot01 * dot12) * invDenom
    let v := (dot00 * dot12 - dot01 * dot02) * invDenom
    some (u, v)

/-- JS `barycentric_to_cartesian(triangle, uv)`:
`add(a, add(mul(uv[0], ca), mul(uv[1], ba)))` with `ba = sub(triangle[1], a)`
and `ca = sub(triangle[2], a)`.  Total: only `+`, `-`, `*`. -/
def barycentric_to_cartesian (triangle : Triangle) (uv : Vec) : Vec :=
  let a := triangle.a
  let ba := sub triangle.b a
  let ca := sub triangle.c a
  add a (add (mul uv.1 ca) (mul uv.2 ba))

/-- JS `var PIXEL_WIDTH = 4;` -/
def PIXEL_WIDTH : ℕ := 4

/-- The embedding of an HTML5 `ImageData`: width, height and the flat
`Uint8ClampedArray` backing store `data`. -/
structure ImageData where
  width : ℕ
  height : ℕ
  data : List ℕ

/-- Reading `array[i]` on a JS typed array: an index outside the store
yields `undefined`, which the subsequent store into a `Uint8ClampedArray`
destination converts to `0`.  We therefore read `0` off the ends. -/
def readAt (data : List ℕ) (i : ℤ) : ℕ :=
  if 0 ≤ i then data.getD i.toNat 0 else 0

/-- The state threaded through `map_triangle`: the source image, the two
triangles and the destination image.  Only `dst.data` is ever written. -/
structure MapState where
  src : ImageData
  src_triangle : Triangle
  dst : ImageData
  dst_triangle : Triangle

/-- Writing `dst_pixel_data[i] = v`: a JS typed-array store outside the
array bounds is silently dropped, exactly the behaviour of `List.set`. -/
def write_dst (s : MapState) (i : ℕ) (v : ℕ) : MapState :=
  { s with dst := { s.dst with data := s.dst.data.set i v } }

/-- The body of the double loop of `map_triangle` for one destination
pixel `(x, y)`: compute `uv`, test
`(uv[0] >= 0) && (uv[1] >= 0) && (uv[0] + uv[1] <= 1)` (false whenever
`uv` is non-finite, i.e. `none`), then either copy the four channels of
the floored source sample or write the opaque-white fill `255` four
times. -/
def map_pixel (s : MapState) (x y : ℕ) : MapState :=
  let uv := cartesian_to_barycentric s.dst_triangle ((x : ℚ), (y : ℚ))
  let dst_pixel_start := PIXEL_WIDTH * (x + y * s.dst.width)
  match uv with
  | some p =>
    if 0 ≤ p.1 ∧ 0 ≤ p.2 ∧ p.1 + p.2 ≤ 1 then
      let src_xy := barycentric_to_cartesian s.src_triangle p
      let src_pixel_start : ℤ :=
        (PIXEL_WIDTH : ℤ) * (⌊src_xy.1⌋ + ⌊src_xy.2⌋ * (s.src.width : ℤ))
      write_dst
        (write_dst
          (write_dst
            (write_dst s dst_pixel_start (readAt s.src.data src_pixel_start))
            (dst_pixel_start + 1) (readAt s.src.data (src_pixel_start + 1)))
          (dst_pixel_start + 2) (readAt s.src.data (src_pixel_start + 2)))
        (dst_pixel_start + 3) (readAt s.src.data (src_pixel_start + 3))
    else
      write_dst
        (write_dst
          (write_dst (write_dst s dst_pixel_start 255) (dst_pixel_start + 1) 255)
          (dst_pixel_start + 2) 255)
        (dst_pixel_start + 3) 255
  | none =>
    write_dst
      (write_dst
        (write_dst (write_dst s dst_pixel_start 255) (dst_pixel_start + 1) 255)
        (dst_pixel_start + 2) 255)
      (dst_pixel_start + 3) 255

/-- The inner `for (var y = 0; y < dst_image_data.height; y++)` loop at a
fixed `x`.  Writes never change `dst.height`, so taking the bound from
the state at loop entry matches the JS per-iteration test. -/
def map_y (s : MapState) (x : ℕ) : MapState :=
  (List.range s.dst.height).foldl (fun s' y => map_pixel s' x y) s

/-- JS `map_triangle(src_image_data, src_triangle, dst_image_data,
dst_triangle)`: the outer loop over `x`, returning the final state. -/
def map_triangle (src : ImageData) (src_triangle : Triangle)
    (dst : ImageData) (dst_triangle : Triangle) : MapState :=
  (List.range dst.width).foldl (fun s x => map_y s x)
    ⟨src, src_triangle, dst, dst_triangle⟩

/-- The inside-the-triangle classification applied by `map_triangle` to a
destination pixel: the source's
`(uv[0] >= 0) && (uv[1] >= 0) && (uv[0] + uv[1] <= 1)`, which is false
when the coordinates are non-finite (`none`). -/
def xy_in_triangle (t : Triangle) (xy : Vec) : Bool :=
  match cartesian_to_barycentric t xy with
  | some p => decide (0 ≤ p.1 ∧ 0 ≤ p.2 ∧ p.1 + p.2 ≤ 1)
  | none => false

/-- The value `map_triangle` stores into channel `c` (0‥3) of destination
pixel `(x, y)`: the branch of `map_pixel`, as a pure function of the
inputs. -/
def pixel_value (src : ImageData) (src_triangle dst_triangle : Triangle)
    (x y c : ℕ) : ℕ :=
  match cartesian_to_barycentric dst_triangle ((x : ℚ), (y : ℚ)) with
  | some p =>
    if 0 ≤ p.1 ∧ 0 ≤ p.2 ∧ p.1 + p.2 ≤ 1 then
      let src_xy := barycentric_to_cartesian src_triangle p
      readAt src.data
        ((PIXEL_WIDTH : ℤ) * (⌊src_xy.1⌋ + ⌊src_xy.2⌋ * (src.width : ℤ)) + c)
    else 255
  | none => 255

/-- `Modelled from the spec:` the `OutOfBounds` clamping policy of §7,
absent from the source: clamp the floored sample coordinate, x to
`[0, width-1]` and y to `[0, height-1]`, and read that source pixel. -/
def spec_clampedSample (img : ImageData) (sx sy : ℚ) (c : ℕ) : ℕ :=
  let fx : ℤ := max 0 (min ⌊sx⌋ ((img.width : ℤ) - 1))
  let fy : ℤ := max 0 (min ⌊sy⌋ ((img.height : ℤ) - 1))
  readAt img.data ((PIXEL_WIDTH : ℤ) * (fx + fy * (img.width : ℤ)) + c)

/-! ### Structural lemmas about the blit loop -/

/-- All four branches of `map_pixel` write channels 0‥3 of the pixel's
block, and the written values are `pixel_value`. -/
lemma map_pixel_eq (s : MapState) (x y : ℕ) :
    map_pixel s x y =
      write_dst (write_dst (write_dst (write_dst s
        (PIXEL_WIDTH * (x + y * s.dst.width))
        (pixel_value s.src s.src_triangle s.dst_triangle x y 0))
        (PIXEL_WIDTH * (x + y * s.dst.width) + 1)
        (pixel_value s.src s.src_triangle s.dst_triangle x y 1))
        (PIXEL_WIDTH * (x + y * s.dst.width) + 2)
        (pixel_value s.src s.src_triangle s.dst_triangle x y 2))
        (PIXEL_WIDTH * (x + y * s.dst.width) + 3)
        (pixel_value s.src s.src_triangle s.dst_triangle x y 3) := by
  unfold map_pixel pixel_value
  cases cartesian_to_barycentric s.dst_triangle ((x : ℚ), (y : ℚ)) with
  | none => rfl
  | some p =>
    by_cases h : 0 ≤ p.1 ∧ 0 ≤ p.2 ∧ p.1 + p.2 ≤ 1
    · simp only [if_pos h]
      norm_num
    · simp only [if_neg h]

/-- Everything except the destination's backing store is preserved. -/
def sameFrame (s t : MapState) : Prop :=
  t.src = s.src ∧ t.src_triangle = s.src_triangle ∧ t.dst_triangle = s.dst_triangle ∧
  t.dst.width = s.dst.width ∧ t.dst.height = s.dst.height ∧
  t.dst.data.length = s.dst.data.length

lemma sameFrame_rfl (s : MapState) : sameFrame s s :=
  ⟨rfl, rfl, rfl, rfl, rfl, rfl⟩

lemma sameFrame_trans {s t u : MapState} (h1 : sameFrame s t) (h2 : sameFrame t u) :
    sameFrame s u := by
  obtain ⟨a1, b1, c1, d1, e1, f1⟩ := h1
  obtain ⟨a2, b2, c2, d2, e2, f2⟩ := h2
  exact ⟨a2.trans a1, b2.trans b1, c2.trans c1, d2.trans d1, e2.trans e1, f2.trans f1⟩

lemma write_dst_frame (s : MapState) (i v : ℕ) : sameFrame s (write_dst s i v) :=
  ⟨rfl, rfl, rfl, rfl, rfl, by simp [write_dst]⟩

lemma map_pixel_frame (s : MapState) (x y : ℕ) : sameFrame s (map_pixel s x y) := by
  rw [map_pixel_eq]
  exact sameFrame_trans (sameFrame_trans (sameFrame_trans
    (write_dst_frame ..) (write_dst_frame ..)) (write_dst_frame ..)) (write_dst_frame ..)

lemma foldl_pixel_frame (x : ℕ) (l : List ℕ) :
    ∀ s : MapState, sameFrame s (l.foldl (fun s' y => map_pixel s' x y) s) := by
  induction l with
  | nil => exact fun s => sameFrame_rfl s
  | cons y0 t ih =>
    intro s
    exact sameFrame_trans (map_pixel_frame s x y0) (ih (map_pixel s x y0))

lemma map_y_frame (s : MapState) (x : ℕ) : sameFrame s (map_y s x) :=
  foldl_pixel_frame x _ s

lemma foldl_y_frame (l : List ℕ) :
    ∀ s : MapState, sameFrame s (l.foldl (fun s' x => map_y s' x) s) := by
  induction l with
  | nil => exact fun s => sameFrame_rfl s
  | cons x0 t ih =>
    intro s
    exact sameFrame_trans (map_y_frame s x0) (ih (map_y s x0))

lemma map_triangle_frame (src : ImageData) (src_triangle : Triangle)
    (dst : ImageData) (dst_triangle : Triangle) :
    sameFrame ⟨src, src_triangle, dst, dst_triangle⟩
      (map_triangle src src_triangle dst dst_triangle) :=
  foldl_y_frame _ _

/-! ### Per-index characterisation of the blit loop -/

lemma map_pixel_get_eq (s : MapState) (x y c : ℕ) (hc : c < 4)
    (hlen : PIXEL_WIDTH * (x + y * s.dst.width) + c < s.dst.data.length) :
    ((map_pixel s x y).dst.data)[PIXEL_WIDTH * (x + y * s.dst.width) + c]? =
      some (pixel_value s.src s.src_triangle s.dst_triangle x y c) := by
  rw [map_pixel_eq]
  simp only [write_dst] at hlen ⊢
  interval_cases c
  · simp only [Nat.add_zero] at hlen ⊢
    rw [List.getElem?_set_ne (by omega), List.getElem?_set_ne (by omega),
      List.getElem?_set_ne (by omega), List.getElem?_set_self (by omega)]
  · rw [List.getElem?_set_ne (by omega), List.getElem?_set_ne (by omega),
      List.getElem?_set_self (by simp only [List.length_set]; omega)]
  · rw [List.getElem?_set_ne (by omega),
      List.getElem?_set_self (by simp only [List.length_set]; omega)]
  · rw [List.getElem?_set_self (by simp only [List.length_set]; omega)]

lemma map_pixel_get_ne (s : MapState) (x y j : ℕ)
    (h : ∀ c, c < 4 → PIXEL_WIDTH * (x + y * s.dst.width) + c ≠ j) :
    ((map_pixel s x y).dst.data)[j]? = s.dst.data[j]? := by
  rw [map_pixel_eq]
  simp only [write_dst]
  have h0 := h 0 (by omega)
  have h1 := h 1 (by omega)
  have h2 := h 2 (by omega)
  have h3 := h 3 (by omega)
  rw [List.getElem?_set_ne (by omega), List.getElem?_set_ne (by omega),
    List.getElem?_set_ne (by omega), List.getElem?_set_ne (by omega)]

lemma foldl_pixel_get_ne (x j w : ℕ) (l : List ℕ) :
    ∀ s : MapState, s.dst.width = w →
      (∀ y' ∈ l, ∀ c, c < 4 → PIXEL_WIDTH * (x + y' * w) + c ≠ j) →
      ((l.foldl (fun s' y' => map_pixel s' x y') s).dst.data)[j]? = s.dst.data[j]? := by
  induction l with
  | nil => intro s _ _; rfl
  | cons y0 t ih =>
    intro s hw h
    rw [List.foldl_cons,
      ih (map_pixel s x y0) ((map_pixel_frame s x y0).2.2.2.1.trans hw)
        (fun y' hy' => h y' (List.mem_cons_of_mem _ hy'))]
    exact map_pixel_get_ne s x y0 j (by rw [hw]; exact h y0 (List.mem_cons_self ..))

lemma foldl_pixel_get_eq (x y c w : ℕ) (hw0 : 0 < w) (hc : c < 4) (l : List ℕ) :
    ∀ s : MapState, s.dst.width = w → y ∈ l →
      PIXEL_WIDTH * (x + y * w) + c < s.dst.data.length →
      ((l.foldl (fun s' y' => map_pixel s' x y') s).dst.data)[PIXEL_WIDTH * (x + y * w) + c]? =
        some (pixel_value s.src s.src_triangle s.dst_triangle x y c) := by
  induction l with
  | nil => intro s _ hy _; cases hy
  | cons y0 t ih =>
    intro s hw hy hlen
    rw [List.foldl_cons]
    by_cases hyt : y ∈ t
    · have hf := map_pixel_frame s x y0
      rw [ih (map_pixel s x y0) (hf.2.2.2.1.trans hw) hyt (by rw [hf.2.2.2.2.2]; exact hlen),
        hf.1, hf.2.1, hf.2.2.1]
    · have hyy : y = y0 := by
        rcases List.mem_cons.mp hy with h | h
        · exact h
        · exact absurd h hyt
      subst hyy
      have hne : ∀ y' ∈ t, ∀ c', c' < 4 →
          PIXEL_WIDTH * (x + y' * w) + c' ≠ PIXEL_WIDTH * (x + y * w) + c := by
        intro y' hy' c' hc' heq
        have hyy' : y' ≠ y := fun h => hyt (h ▸ hy')
        apply hyy'
        have hmul : y' * w = y * w := by
          simp only [PIXEL_WIDTH] at heq
          omega
        exact Nat.eq_of_mul_eq_mul_right hw0 hmul
      rw [foldl_pixel_get_ne x _ w t (map_pixel s x y)
        ((map_pixel_frame s x y).2.2.2.1.trans hw) hne]
      rw [← hw] at hlen ⊢
      exact map_pixel_get_eq s x y c hc hlen

lemma map_y_get_ne (s : MapState) (x' j w : ℕ) (hw : s.dst.width = w)
    (h : ∀ y' c, c < 4 → PIXEL_WIDTH * (x' + y' * w) + c ≠ j) :
    ((map_y s x').dst.data)[j]? = s.dst.data[j]? :=
  foldl_pixel_get_ne x' j w _ s hw (fun y' _ c hc => h y' c hc)

lemma map_y_get_eq (s : MapState) (x y c w : ℕ) (hw : s.dst.width = w) (hw0 : 0 < w)
    (hy : y < s.dst.height) (hc : c < 4)
    (hlen : PIXEL_WIDTH * (x + y * w) + c < s.dst.data.length) :
    ((map_y s x).dst.data)[PIXEL_WIDTH * (x + y * w) + c]? =
      some (pixel_value s.src s.src_triangle s.dst_triangle x y c) :=
  foldl_pixel_get_eq x y c w hw0 hc _ s hw (List.mem_range.mpr hy) hlen

lemma foldl_y_get_ne (j w : ℕ) (l : List ℕ) :
    ∀ s : MapState, s.dst.width = w →
      (∀ x' ∈ l, ∀ y' c, c < 4 → PIXEL_WIDTH * (x' + y' * w) + c ≠ j) →
      ((l.foldl (fun s' x' => map_y s' x') s).dst.data)[j]? = s.dst.data[j]? := by
  induction l with
  | nil => intro s _ _; rfl
  | cons x0 t ih =>
    intro s hw h
    rw [List.foldl_cons,
      ih (map_y s x0) ((map_y_frame s x0).2.2.2.1.trans hw)
        (fun x' hx' => h x' (List.mem_cons_of_mem _ hx'))]
    exact map_y_get_ne s x0 j w hw (h x0 (List.mem_cons_self ..))

lemma foldl_y_get_eq (x y c w : ℕ) (hw0 : 0 < w) (hx : x < w) (hc : c < 4) (l : List ℕ) :
    ∀ s : MapState, s.dst.width = w → (∀ x' ∈ l, x' < w) → x ∈ l → y < s.dst.height →
      PIXEL_WIDTH * (x + y * w) + c < s.dst.data.length →
      ((l.foldl (fun s' x' => map_y s' x') s).dst.data)[PIXEL_WIDTH * (x + y * w) + c]? =
        some (pixel_value s.src s.src_triangle s.dst_triangle x y c) := by
  induction l with
  | nil => intro s _ _ hmem _ _; cases hmem
  | cons x0 t ih =>
    intro s hw hbound hmem hy hlen
    rw [List.foldl_cons]
    by_cases hxt : x ∈ t
    · have hf := map_y_frame s x0
      rw [ih (map_y s x0) (hf.2.2.2.1.trans hw)
        (fun x' hx' => hbound x' (List.mem_cons_of_mem _ hx'))
        hxt (by rw [hf.2.2.2.2.1]; exact hy) (by rw [hf.2.2.2.2.2]; exact hlen),
        hf.1, hf.2.1, hf.2.2.1]
    · have hxx : x = x0 := by
        rcases List.mem_cons.mp hmem with h | h
        · exact h
        · exact absurd h hxt
      subst hxx
      have hne : ∀ x' ∈ t, ∀ y' c', c' < 4 →
          PIXEL_WIDTH * (x' + y' * w) + c' ≠ PIXEL_WIDTH * (x + y * w) + c := by
        intro x' hx' y' c' hc' heq
        have hxx' : x' ≠ x := fun h => hxt (h ▸ hx')
        apply hxx'
        have hadd : x' + y' * w = x + y * w := by
          simp only [PIXEL_WIDTH] at heq
          omega
        have hmod := congrArg (· % w) hadd
        simpa [Nat.add_mul_mod_self_right,
          Nat.mod_eq_of_lt (hbound x' (List.mem_cons_of_mem _ hx')),
          Nat.mod_eq_of_lt hx] using hmod
      rw [foldl_y_get_ne _ w t (map_y s x)
        ((map_y_frame s x).2.2.2.1.trans hw) hne]
      exact map_y_get_eq s x y c w hw hw0 hy hc hlen

/-- The value of channel `c` of destination pixel `(x, y)` after
`map_triangle`: the pure branch function `pixel_value`. -/
lemma map_triangle_getElem (src : ImageData) (src_triangle : Triangle)
    (dst : ImageData) (dst_triangle : Triangle) (x y c : ℕ)
    (hx : x < dst.width) (hy : y < dst.height) (hc : c < 4)
    (hlen : PIXEL_WIDTH * (x + y * dst.width) + c < dst.data.length) :
    ((map_triangle src src_triangle dst dst_triangle).dst.data)[PIXEL_WIDTH *
        (x + y * dst.width) + c]? =
      some (pixel_value src src_triangle dst_triangle x y c) :=
  foldl_y_get_eq x y c dst.width (lt_of_le_of_lt (Nat.zero_le x) hx) hx hc
    (List.range dst.width) ⟨src, src_triangle, dst, dst_triangle⟩ rfl
    (fun _ hx' => List.mem_range.mp hx') (List.mem_range.mpr hx) hy hlen

/-- A zero shared denominator (degenerate triangle) makes the JS
coordinates non-finite; in the model, `none`. -/
lemma cartesian_to_barycentric_eq_none (t : Triangle) (xy : Vec) (h : denom t = 0) :
    cartesian_to_barycentric t xy = none := by
  obtain ⟨⟨ax, ay⟩, ⟨bx, b2⟩, ⟨cx, cy⟩⟩ := t
  simp only [denom, sub, dot] at h
  simp only [cartesian_to_barycentric, sub, dot]
  rw [if_pos h]

/-- Decompose a flat store index into pixel coordinates and channel. -/
lemma exists_pixel_decomp (w h j : ℕ) (hj : j < 4 * (w * h)) :
    ∃ x y c, x < w ∧ y < h ∧ c < 4 ∧ 4 * (x + y * w) + c = j := by
  rcases Nat.eq_zero_or_pos w with rfl | hw0
  · simp at hj
  rcases Nat.eq_zero_or_pos h with rfl | hh0
  · simp at hj
  refine ⟨(j / 4) % w, (j / 4) / w, j % 4, Nat.mod_lt _ hw0, ?_, Nat.mod_lt _ (by norm_num), ?_⟩
  · rw [Nat.div_lt_iff_lt_mul hw0]
    have h1 : j / 4 < w * h := by omega
    exact lt_of_lt_of_le h1 (le_of_eq (Nat.mul_comm w h))
  · have h2 := Nat.mod_add_div' (j / 4) w
    omega

/-! ### Concrete fixtures used by counterexamples and witnesses -/

/-- The triangle `{(0,0),(0,10),(10,10)}` of the identity-mapping scenario. -/
def T8 : Triangle := ⟨(0, 0), (0, 10), (10, 10)⟩

/-- A degenerate triangle: `(0,0)`, `(5,5)`, `(10,10)` are collinear. -/
def degT : Triangle := ⟨(0, 0), (5, 5), (10, 10)⟩

/-- A 1×1 source image with pixel `(1,2,3,4)`. -/
def img1 : ImageData := ⟨1, 1, [1, 2, 3, 4]⟩

/-- A 1×1 destination image with pixel `(0,0,0,0)`. -/
def dstA : ImageData := ⟨1, 1, [0, 0, 0, 0]⟩

/-- The unit right triangle `{(0,0),(0,1),(1,1)}`. -/
def triU : Triangle := ⟨(0, 0), (0, 1), (1, 1)⟩

/-- A 1×1 source image with pixel `(9,9,9,9)`. -/
def c3src : ImageData := ⟨1, 1, [9, 9, 9, 9]⟩

/-- A source triangle whose corner `A = (2,0)` lies outside the 1×1
source extent, so destination pixel `(0,0)` samples out of range. -/
def c3srcT : Triangle := ⟨(2, 0), (0, 1), (1, 1)⟩

/-- A 1×1 destination image with pixel `(7,7,7,7)`. -/
def c3dst : ImageData := ⟨1, 1, [7, 7, 7, 7]⟩

/-- A 2×1 destination image, all channels zero. -/
def dst2 : ImageData := ⟨2, 1, [0, 0, 0, 0, 0, 0, 0, 0]⟩

/-- The 10×10 gradient backing store: channel value `i % 256` at flat
index `i`. -/
def gradData : List ℕ := (List.range 400).map (fun i => i % 256)

/-- The 10×10 gradient source image of the identity-mapping scenario. -/
def gradSrc : ImageData := ⟨10, 10, gradData⟩

/-- A 10×10 destination image, all channels `7`. -/
def dst8 : ImageData := ⟨10, 10, List.replicate 400 7⟩

/-- The shared denominator of `T8` is `10000`. -/
lemma denom_T8 : denom T8 = 10000 := by
  norm_num [T8, denom, sub, dot]

/-- The round-trip law, as a shared lemma. -/
lemma round_trip_eq (t : Triangle) (p : Vec) (h : denom t ≠ 0) :
    (cartesian_to_barycentric t p).map (barycentric_to_cartesian t) = some p := by
  obtain ⟨⟨ax, ay⟩, ⟨bx, b2⟩, ⟨cx, cy⟩⟩ := t
  obtain ⟨px, py⟩ := p
  simp only [denom, sub, dot] at h
  simp only [cartesian_to_barycentric, sub, dot]
  rw [if_neg h]
  simp only [Option.map_some', barycentric_to_cartesian, sub, add, mul]
  refine congrArg some (Prod.ext ?_ ?_) <;> (simp only []; field_simp; ring)

/-- Inverting a successful conversion: if `cartesian_to_barycentric`
returned finite coordinates `p` for `xy`, then `barycentric_to_cartesian`
takes `p` back to `xy`. -/
lemma b2c_of_c2b (t : Triangle) (xy p : Vec) (hd : denom t ≠ 0)
    (h : cartesian_to_barycentric t xy = some p) :
    barycentric_to_cartesian t p = xy := by
  have h2 := round_trip_eq t xy hd
  rw [h, Option.map_some'] at h2
  simpa using h2

/-! ### Claims -/

/-- Claim C1: for every non-degenerate triangle `t` (nonzero shared
denominator) and every point `p`, converting to barycentric coordinates
and back yields `p` exactly, over exact rational arithmetic. -/
theorem C1_round_trip (t : Triangle) (p : Vec) (h : denom t ≠ 0) :
    (cartesian_to_barycentric t p).map (barycentric_to_cartesian t) = some p :=
  round_trip_eq t p h

/-- Witness for C1 at the triangle `{(0,0),(0,10),(10,10)}` and the
point `(3,7)`. -/
theorem C1_round_trip_witness :
    denom T8 ≠ 0 ∧
    (cartesian_to_barycentric T8 (3, 7)).map (barycentric_to_cartesian T8) = some (3, 7) :=
  ⟨by rw [denom_T8]; norm_num, C1_round_trip T8 (3, 7) (by rw [denom_T8]; norm_num)⟩

/-- Claim C6: the corners of a non-degenerate triangle are mapped to the
fixed barycentric coordinates `A ↦ (0,0)`, `B ↦ (0,1)`, `C ↦ (1,0)`:
`u` weights corner `C` and `v` weights corner `B`. -/
theorem C6_corner_fixed_points (t : Triangle) (h : denom t ≠ 0) :
    cartesian_to_barycentric t t.a = some (0, 0) ∧
    cartesian_to_barycentric t t.b = some (0, 1) ∧
    cartesian_to_barycentric t t.c = some (1, 0) := by
  obtain ⟨⟨ax, ay⟩, ⟨bx, b2⟩, ⟨cx, cy⟩⟩ := t
  simp only [denom, sub, dot] at h
  refine ⟨?_, ?_, ?_⟩ <;>
    (simp only [cartesian_to_barycentric, sub, dot]; rw [if_neg h];
     refine congrArg some (Prod.ext ?_ ?_) <;> (simp only []; field_simp; try ring))

/-- Witness for C6 at the triangle `{(0,0),(0,10),(10,10)}`. -/
theorem C6_corner_fixed_points_witness :
    denom T8 ≠ 0 ∧
    (cartesian_to_barycentric T8 T8.a = some (0, 0) ∧
     cartesian_to_barycentric T8 T8.b = some (0, 1) ∧
     cartesian_to_barycentric T8 T8.c = some (1, 0)) :=
  ⟨by rw [denom_T8]; norm_num, C6_corner_fixed_points T8 (by rw [denom_T8]; norm_num)⟩

/-- Claim C10: `barycentric_to_cartesian` is total — defined for every
triangle, degenerate or not, and every coordinate pair, with no error
path — and returns `A + u*(C - A) + v*(B - A)`, built from addition,
subtraction and multiplication only (no division). -/
theorem C10_from_barycentric_total (t : Triangle) (u v : ℚ) :
    barycentric_to_cartesian t (u, v) =
      (t.a.1 + u * (t.c.1 - t.a.1) + v * (t.b.1 - t.a.1),
       t.a.2 + u * (t.c.2 - t.a.2) + v * (t.b.2 - t.a.2)) := by
  simp only [barycentric_to_cartesian, sub, add, mul]
  refine Prod.ext ?_ ?_ <;> (simp only []; ring)

/-- Claim C9: a `map_triangle` call leaves the source image (pixel data
and dimensions), both triangles, and the destination's dimensions and
store size unchanged; only the destination's pixel data is written. -/
theorem C9_only_dst_mutated (src : ImageData) (src_triangle : Triangle)
    (dst : ImageData) (dst_triangle : Triangle) :
    (map_triangle src src_triangle dst dst_triangle).src = src ∧
    (map_triangle src src_triangle dst dst_triangle).src_triangle = src_triangle ∧
    (map_triangle src src_triangle dst dst_triangle).dst_triangle = dst_triangle ∧
    (map_triangle src src_triangle dst dst_triangle).dst.width = dst.width ∧
    (map_triangle src src_triangle dst dst_triangle).dst.height = dst.height ∧
    (map_triangle src src_triangle dst dst_triangle).dst.data.length = dst.data.length :=
  map_triangle_frame src src_triangle dst dst_triangle

/-- `readAt` yields `0` off either end of the store. -/
lemma readAt_eq_zero (data : List ℕ) (i : ℤ) (h : i < 0 ∨ (data.length : ℤ) ≤ i) :
    readAt data i = 0 := by
  unfold readAt
  rcases h with h | h
  · rw [if_neg (by omega)]
  · rw [if_pos (by omega)]
    exact List.getD_eq_default _ _ (by omega)

/-- `pixel_value` when the barycentric coordinates are non-finite. -/
lemma pixel_value_of_none (src : ImageData) (src_triangle dst_triangle : Triangle)
    (x y c : ℕ)
    (h : cartesian_to_barycentric dst_triangle ((x : ℚ), (y : ℚ)) = none) :
    pixel_value src src_triangle dst_triangle x y c = 255 := by
  unfold pixel_value
  rw [h]

/-- `pixel_value` when the barycentric coordinates are finite. -/
lemma pixel_value_of_some (src : ImageData) (src_triangle dst_triangle : Triangle)
    (x y c : ℕ) (p : Vec)
    (h : cartesian_to_barycentric dst_triangle ((x : ℚ), (y : ℚ)) = some p) :
    pixel_value src src_triangle dst_triangle x y c =
      if 0 ≤ p.1 ∧ 0 ≤ p.2 ∧ p.1 + p.2 ≤ 1 then
        readAt src.data ((PIXEL_WIDTH : ℤ) *
          (⌊(barycentric_to_cartesian src_triangle p).1⌋ +
            ⌊(barycentric_to_cartesian src_triangle p).2⌋ * (src.width : ℤ)) + (c : ℤ))
      else 255 := by
  unfold pixel_value
  rw [h]

/-- Claim C4: a destination pixel classified outside the destination
triangle by the closed-region test `u ≥ 0 ∧ v ≥ 0 ∧ u + v ≤ 1` receives
the opaque-white fill `255` in all four channels; the source buffer `src`
is universally quantified, so the written value never depends on it. -/
theorem C4_outside_fill (src : ImageData) (src_triangle : Triangle)
    (dst : ImageData) (dst_triangle : Triangle) (x y c : ℕ)
    (hx : x < dst.width) (hy : y < dst.height) (hc : c < 4)
    (hlen : PIXEL_WIDTH * (x + y * dst.width) + c < dst.data.length)
    (hout : xy_in_triangle dst_triangle ((x : ℚ), (y : ℚ)) = false) :
    ((map_triangle src src_triangle dst dst_triangle).dst.data)[PIXEL_WIDTH *
        (x + y * dst.width) + c]? = some 255 := by
  rw [map_triangle_getElem src src_triangle dst dst_triangle x y c hx hy hc hlen]
  unfold xy_in_triangle at hout
  cases h' : cartesian_to_barycentric dst_triangle ((x : ℚ), (y : ℚ)) with
  | none => rw [pixel_value_of_none src src_triangle dst_triangle x y c h']
  | some p =>
    rw [h'] at hout
    simp only [decide_eq_false_iff_not] at hout
    rw [pixel_value_of_some src src_triangle dst_triangle x y c p h', if_neg hout]

/-- Witness for C4: pixel `(1,0)` of a 2×1 destination lies outside the
unit right triangle and gets the white fill. -/
theorem C4_outside_fill_witness :
    (1 : ℕ) < dst2.width ∧ (0 : ℕ) < dst2.height ∧ (0 : ℕ) < 4 ∧
    PIXEL_WIDTH * (1 + 0 * dst2.width) + 0 < dst2.data.length ∧
    xy_in_triangle triU ((1 : ℚ), (0 : ℚ)) = false ∧
    ((map_triangle img1 triU dst2 triU).dst.data)[PIXEL_WIDTH *
        (1 + 0 * dst2.width) + 0]? = some 255 := by
  have hout : xy_in_triangle triU ((1 : ℚ), (0 : ℚ)) = false := by
    unfold xy_in_triangle
    rw [show cartesian_to_barycentric triU (1, 0) = some (1, -1) by
      simp only [cartesian_to_barycentric, triU, sub, dot]
      rw [if_neg (by norm_num)]
      norm_num]
    norm_num
  refine ⟨by norm_num [dst2], by norm_num [dst2], by norm_num,
    by norm_num [dst2, PIXEL_WIDTH], hout, ?_⟩
  exact C4_outside_fill img1 triU dst2 triU 1 0 0 (by norm_num [dst2])
    (by norm_num [dst2]) (by norm_num) (by norm_num [dst2, PIXEL_WIDTH])
    (by exact_mod_cast hout)

/-- Claim C5: a destination pixel `(x, y)` classified inside the
destination triangle receives, in each channel `c`, the value read from
the source store at flat offset
`4 * (⌊sx⌋ + ⌊sy⌋ * src.width) + c`, where `(sx, sy)` is
`barycentric_to_cartesian` of the source triangle at the pixel's
barycentric coordinates, the destination offset being
`4 * (x + y * dst.width) + c`. -/
theorem C5_inside_copy (src : ImageData) (src_triangle : Triangle)
    (dst : ImageData) (dst_triangle : Triangle) (x y c : ℕ) (p : Vec)
    (hx : x < dst.width) (hy : y < dst.height) (hc : c < 4)
    (hlen : PIXEL_WIDTH * (x + y * dst.width) + c < dst.data.length)
    (huv : cartesian_to_barycentric dst_triangle ((x : ℚ), (y : ℚ)) = some p)
    (hin : 0 ≤ p.1 ∧ 0 ≤ p.2 ∧ p.1 + p.2 ≤ 1) :
    ((map_triangle src src_triangle dst dst_triangle).dst.data)[PIXEL_WIDTH *
        (x + y * dst.width) + c]? =
      some (readAt src.data ((PIXEL_WIDTH : ℤ) *
        (⌊(barycentric_to_cartesian src_triangle p).1⌋ +
          ⌊(barycentric_to_cartesian src_triangle p).2⌋ * (src.width : ℤ)) + (c : ℤ))) := by
  rw [map_triangle_getElem src src_triangle dst dst_triangle x y c hx hy hc hlen,
    pixel_value_of_some src src_triangle dst_triangle x y c p huv, if_pos hin]

/-- Witness for C5: pixel `(0,0)` of a 1×1 destination, inside the unit
right triangle with coordinates `(0,0)`, copies source channel 0. -/
theorem C5_inside_copy_witness :
    (0 : ℕ) < dstA.width ∧ (0 : ℕ) < dstA.height ∧ (0 : ℕ) < 4 ∧
    PIXEL_WIDTH * (0 + 0 * dstA.width) + 0 < dstA.data.length ∧
    cartesian_to_barycentric triU ((0 : ℚ), (0 : ℚ)) = some (0, 0) ∧
    ((map_triangle img1 triU dstA triU).dst.data)[PIXEL_WIDTH *
        (0 + 0 * dstA.width) + 0]? =
      some (readAt img1.data ((PIXEL_WIDTH : ℤ) *
        (⌊(barycentric_to_cartesian triU ((0 : ℚ), (0 : ℚ))).1⌋ +
          ⌊(barycentric_to_cartesian triU ((0 : ℚ), (0 : ℚ))).2⌋ * (img1.width : ℤ)) +
        ((0 : ℕ) : ℤ))) := by
  have huv : cartesian_to_barycentric triU ((0 : ℚ), (0 : ℚ)) = some (0, 0) := by
    simp only [cartesian_to_barycentric, triU, sub, dot]
    rw [if_neg (by norm_num)]
    norm_num
  refine ⟨by norm_num [dstA], by norm_num [dstA], by norm_num,
    by norm_num [dstA, PIXEL_WIDTH], huv, ?_⟩
  exact C5_inside_copy img1 triU dstA triU 0 0 0 (0, 0) (by norm_num [dstA])
    (by norm_num [dstA]) (by norm_num) (by norm_num [dstA, PIXEL_WIDTH])
    (by exact_mod_cast huv) (by norm_num)

/-- Counterexample to claim C2 as stated: with the degenerate destination
triangle `{(0,0),(5,5),(10,10)}` (zero shared denominator), `map_triangle`
does not abort — it overwrites the destination pixel, so the destination
buffer is not left untouched. -/
theorem C2_counterexample :
    denom degT = 0 ∧ (map_triangle img1 triU dstA degT).dst.data ≠ dstA.data := by
  have hdeg : denom degT = 0 := by norm_num [degT, denom, sub, dot]
  refine ⟨hdeg, fun heq => ?_⟩
  have h0 := map_triangle_getElem img1 triU dstA degT 0 0 0 (by norm_num [dstA])
    (by norm_num [dstA]) (by norm_num) (by norm_num [dstA, PIXEL_WIDTH])
  rw [heq, pixel_value_of_none img1 triU degT 0 0 0
    (by exact_mod_cast cartesian_to_barycentric_eq_none degT ((0 : ℚ), (0 : ℚ)) hdeg)] at h0
  norm_num [dstA, PIXEL_WIDTH] at h0

/-- Claim C2 (amended): the code has no degeneracy check and no error
path.  With a degenerate destination triangle (zero shared denominator)
the barycentric coordinates are non-finite, every destination pixel fails
the inside test, and `map_triangle` still writes every in-range
destination channel — with the white fill `255` — so the destination
buffer is modified, not left untouched. -/
theorem C2_degenerate_still_writes (src : ImageData) (src_triangle : Triangle)
    (dst : ImageData) (dst_triangle : Triangle) (x y c : ℕ)
    (hdeg : denom dst_triangle = 0) (hx : x < dst.width) (hy : y < dst.height)
    (hc : c < 4) (hlen : PIXEL_WIDTH * (x + y * dst.width) + c < dst.data.length) :
    ((map_triangle src src_triangle dst dst_triangle).dst.data)[PIXEL_WIDTH *
        (x + y * dst.width) + c]? = some 255 := by
  rw [map_triangle_getElem src src_triangle dst dst_triangle x y c hx hy hc hlen,
    pixel_value_of_none src src_triangle dst_triangle x y c
      (cartesian_to_barycentric_eq_none dst_triangle _ hdeg)]

/-- Witness for the amended C2 at the degenerate triangle fixture. -/
theorem C2_degenerate_still_writes_witness :
    denom degT = 0 ∧ (0 : ℕ) < dstA.width ∧ (0 : ℕ) < dstA.height ∧ (0 : ℕ) < 4 ∧
    PIXEL_WIDTH * (0 + 0 * dstA.width) + 0 < dstA.data.length ∧
    ((map_triangle img1 triU dstA degT).dst.data)[PIXEL_WIDTH *
        (0 + 0 * dstA.width) + 0]? = some 255 := by
  have hdeg : denom degT = 0 := by norm_num [degT, denom, sub, dot]
  refine ⟨hdeg, by norm_num [dstA], by norm_num [dstA], by norm_num,
    by norm_num [dstA, PIXEL_WIDTH], ?_⟩
  exact C2_degenerate_still_writes img1 triU dstA degT 0 0 0 hdeg
    (by norm_num [dstA]) (by norm_num [dstA]) (by norm_num)
    (by norm_num [dstA, PIXEL_WIDTH])

/-- Counterexample to claim C3 as stated: destination pixel `(0,0)` is
inside the destination triangle with barycentric coordinates `(0,0)`,
maps to source coordinate `(2,0)` — outside the 1×1 source extent — and
the code writes `0` (the out-of-store read), not the `9` that clamping to
the nearest valid source pixel would produce. -/
theorem C3_counterexample :
    cartesian_to_barycentric triU ((0 : ℚ), (0 : ℚ)) = some (0, 0) ∧
    barycentric_to_cartesian c3srcT ((0 : ℚ), (0 : ℚ)) = (2, 0) ∧
    ((map_triangle c3src c3srcT c3dst triU).dst.data)[0]? = some 0 ∧
    spec_clampedSample c3src 2 0 0 = 9 := by
  have huv : cartesian_to_barycentric triU ((0 : ℚ), (0 : ℚ)) = some (0, 0) := by
    simp only [cartesian_to_barycentric, triU, sub, dot]
    rw [if_neg (by norm_num)]
    norm_num
  have hb2c : barycentric_to_cartesian c3srcT ((0 : ℚ), (0 : ℚ)) = (2, 0) := by
    simp only [barycentric_to_cartesian, c3srcT, sub, add, mul, Prod.mk.injEq]
    norm_num
  refine ⟨huv, hb2c, ?_, ?_⟩
  · have h0 := map_triangle_getElem c3src c3srcT c3dst triU 0 0 0 (by norm_num [c3dst])
      (by norm_num [c3dst]) (by norm_num) (by norm_num [c3dst, PIXEL_WIDTH])
    rw [pixel_value_of_some c3src c3srcT triU 0 0 0 (0, 0)
      (by exact_mod_cast huv), if_pos (by norm_num), hb2c] at h0
    rw [show PIXEL_WIDTH * (0 + 0 * c3dst.width) + 0 = 0 by norm_num [PIXEL_WIDTH]] at h0
    rw [h0]
    norm_num [readAt, c3src, PIXEL_WIDTH]
    decide
  · unfold spec_clampedSample
    norm_num [readAt, c3src, PIXEL_WIDTH]

/-- Claim C3 (amended): the code performs no clamping of computed source
coordinates: for an inside destination pixel it reads the source store at
the raw flat offset of the floored coordinates, and whenever that offset
falls outside the backing store the read yields nothing and `0` is
written to the destination channel (an offset that stays inside the store
is read unclamped, aliasing whatever entry lives there). -/
theorem C3_no_clamping (src : ImageData) (src_triangle : Triangle)
    (dst : ImageData) (dst_triangle : Triangle) (x y c : ℕ) (p : Vec)
    (hx : x < dst.width) (hy : y < dst.height) (hc : c < 4)
    (hlen : PIXEL_WIDTH * (x + y * dst.width) + c < dst.data.length)
    (huv : cartesian_to_barycentric dst_triangle ((x : ℚ), (y : ℚ)) = some p)
    (hin : 0 ≤ p.1 ∧ 0 ≤ p.2 ∧ p.1 + p.2 ≤ 1)
    (hoob : (PIXEL_WIDTH : ℤ) * (⌊(barycentric_to_cartesian src_triangle p).1⌋ +
        ⌊(barycentric_to_cartesian src_triangle p).2⌋ * (src.width : ℤ)) + (c : ℤ) < 0 ∨
      (src.data.length : ℤ) ≤ (PIXEL_WIDTH : ℤ) *
        (⌊(barycentric_to_cartesian src_triangle p).1⌋ +
          ⌊(barycentric_to_cartesian src_triangle p).2⌋ * (src.width : ℤ)) + (c : ℤ)) :
    ((map_triangle src src_triangle dst dst_triangle).dst.data)[PIXEL_WIDTH *
        (x + y * dst.width) + c]? = some 0 := by
  rw [map_triangle_getElem src src_triangle dst dst_triangle x y c hx hy hc hlen,
    pixel_value_of_some src src_triangle dst_triangle x y c p huv, if_pos hin,
    readAt_eq_zero _ _ hoob]

/-- Witness for the amended C3 at the out-of-extent fixture. -/
theorem C3_no_clamping_witness :
    cartesian_to_barycentric triU ((0 : ℚ), (0 : ℚ)) = some (0, 0) ∧
    (c3src.data.length : ℤ) ≤ (PIXEL_WIDTH : ℤ) *
      (⌊(barycentric_to_cartesian c3srcT ((0 : ℚ), (0 : ℚ))).1⌋ +
        ⌊(barycentric_to_cartesian c3srcT ((0 : ℚ), (0 : ℚ))).2⌋ * (c3src.width : ℤ)) +
      ((0 : ℕ) : ℤ) ∧
    ((map_triangle c3src c3srcT c3dst triU).dst.data)[PIXEL_WIDTH *
        (0 + 0 * c3dst.width) + 0]? = some 0 := by
  have huv : cartesian_to_barycentric triU ((0 : ℚ), (0 : ℚ)) = some (0, 0) := by
    simp only [cartesian_to_barycentric, triU, sub, dot]
    rw [if_neg (by norm_num)]
    norm_num
  have hb2c : barycentric_to_cartesian c3srcT ((0 : ℚ), (0 : ℚ)) = (2, 0) := by
    simp only [barycentric_to_cartesian, c3srcT, sub, add, mul, Prod.mk.injEq]
    norm_num
  have hoob : (c3src.data.length : ℤ) ≤ (PIXEL_WIDTH : ℤ) *
      (⌊(barycentric_to_cartesian c3srcT ((0 : ℚ), (0 : ℚ))).1⌋ +
        ⌊(barycentric_to_cartesian c3srcT ((0 : ℚ), (0 : ℚ))).2⌋ * (c3src.width : ℤ)) +
      ((0 : ℕ) : ℤ) := by
    rw [hb2c]
    norm_num [c3src, PIXEL_WIDTH]
  refine ⟨huv, hoob, ?_⟩
  exact C3_no_clamping c3src c3srcT c3dst triU 0 0 0 (0, 0) (by norm_num [c3dst])
    (by norm_num [c3dst]) (by norm_num) (by norm_num [c3dst, PIXEL_WIDTH])
    (by exact_mod_cast huv) (by norm_num) (Or.inr (by exact_mod_cast hoob))

/-- Two `ImageData` values with equal components are equal. -/
lemma imageData_eq (i j : ImageData) (hw : i.width = j.width)
    (hh : i.height = j.height) (hd : i.data = j.data) : i = j := by
  cases i
  cases j
  cases hw
  cases hh
  cases hd
  rfl

/-- Reading a typed-array at a natural index is `getD`. -/
lemma readAt_natCast (d : List ℕ) (n : ℕ) : readAt d (n : ℤ) = d.getD n 0 := by
  unfold readAt
  rw [if_pos (by omega)]
  simp

/-- Claim C7: `map_triangle` is deterministic and overwrites every
destination pixel from the inputs alone, so running the pass a second
time over the already-mapped destination buffer yields a byte-identical
destination buffer. -/
theorem C7_idempotent (src : ImageData) (src_triangle : Triangle)
    (dst : ImageData) (dst_triangle : Triangle)
    (h : dst.data.length = PIXEL_WIDTH * (dst.width * dst.height)) :
    (map_triangle src src_triangle
        (map_triangle src src_triangle dst dst_triangle).dst dst_triangle).dst =
      (map_triangle src src_triangle dst dst_triangle).dst := by
  have f1 := map_triangle_frame src src_triangle dst dst_triangle
  set M1 := map_triangle src src_triangle dst dst_triangle with hM1
  have w1 : M1.dst.width = dst.width := f1.2.2.2.1
  have h1 : M1.dst.height = dst.height := f1.2.2.2.2.1
  have l1 : M1.dst.data.length = dst.data.length := f1.2.2.2.2.2
  have f2 := map_triangle_frame src src_triangle M1.dst dst_triangle
  set M2 := map_triangle src src_triangle M1.dst dst_triangle with hM2
  have w2 : M2.dst.width = M1.dst.width := f2.2.2.2.1
  have h2 : M2.dst.height = M1.dst.height := f2.2.2.2.2.1
  have l2 : M2.dst.data.length = M1.dst.data.length := f2.2.2.2.2.2
  apply imageData_eq _ _ w2 h2
  apply List.ext_getElem?
  intro j
  by_cases hj : j < dst.data.length
  · have hj4 : j < 4 * (dst.width * dst.height) := by
      rw [h] at hj
      simpa [PIXEL_WIDTH] using hj
    obtain ⟨x, y, c, hxw, hyh, hc4, hidx⟩ :=
      exists_pixel_decomp dst.width dst.height j hj4
    have g1 := map_triangle_getElem src src_triangle dst dst_triangle x y c hxw hyh hc4
      (by simp only [PIXEL_WIDTH]; omega)
    have g2 := map_triangle_getElem src src_triangle M1.dst dst_triangle x y c
      (by rw [w1]; exact hxw) (by rw [h1]; exact hyh) hc4
      (by rw [w1, l1]; simp only [PIXEL_WIDTH]; omega)
    rw [w1] at g2
    have hidx' : PIXEL_WIDTH * (x + y * dst.width) + c = j := by
      simp only [PIXEL_WIDTH]
      omega
    rw [hidx'] at g1 g2
    rw [← hM1] at g1
    rw [← hM2] at g2
    rw [g1, g2]
  · rw [List.getElem?_eq_none (by omega), List.getElem?_eq_none (by omega)]

/-- Witness for C7 on the 1×1 fixture. -/
theorem C7_idempotent_witness :
    dstA.data.length = PIXEL_WIDTH * (dstA.width * dstA.height) ∧
    (map_triangle img1 triU (map_triangle img1 triU dstA triU).dst triU).dst =
      (map_triangle img1 triU dstA triU).dst :=
  ⟨by decide, C7_idempotent img1 triU dstA triU (by decide)⟩

/-- Claim C8 (identity-mapping scenario): with source triangle equal to
destination triangle equal to `{(0,0),(0,10),(10,10)}`, a 10×10 gradient
source and a 10×10 destination, every destination pixel inside the
triangle reproduces the corresponding source channel exactly, and every
destination pixel outside it gets the white fill `255`. -/
theorem C8_identity_mapping (x y c : ℕ) (hx : x < 10) (hy : y < 10) (hc : c < 4) :
    ((map_triangle gradSrc T8 dst8 T8).dst.data)[PIXEL_WIDTH * (x + y * 10) + c]? =
      if xy_in_triangle T8 ((x : ℚ), (y : ℚ)) then
        gradSrc.data[PIXEL_WIDTH * (x + y * 10) + c]?
      else some 255 := by
  have hg := map_triangle_getElem gradSrc T8 dst8 T8 x y c
    (show x < dst8.width from hx) (show y < dst8.height from hy) hc
    (by simp only [dst8, List.length_replicate, PIXEL_WIDTH]; omega)
  have hw : dst8.width = 10 := rfl
  rw [hw] at hg
  rw [hg]
  cases hp : cartesian_to_barycentric T8 ((x : ℚ), (y : ℚ)) with
  | none =>
    rw [pixel_value_of_none gradSrc T8 T8 x y c hp]
    simp [xy_in_triangle, hp]
  | some p =>
    by_cases hin : 0 ≤ p.1 ∧ 0 ≤ p.2 ∧ p.1 + p.2 ≤ 1
    · rw [pixel_value_of_some gradSrc T8 T8 x y c p hp, if_pos hin]
      have hbc : barycentric_to_cartesian T8 p = ((x : ℚ), (y : ℚ)) :=
        b2c_of_c2b T8 _ p (by rw [denom_T8]; norm_num) hp
      rw [hbc]
      have hxy : xy_in_triangle T8 ((x : ℚ), (y : ℚ)) = true := by
        unfold xy_in_triangle
        rw [hp]
        exact decide_eq_true hin
      rw [if_pos hxy]
      have hcast : (PIXEL_WIDTH : ℤ) * (⌊((x : ℕ) : ℚ)⌋ + ⌊((y : ℕ) : ℚ)⌋ *
          (gradSrc.width : ℤ)) + (c : ℤ) = ((PIXEL_WIDTH * (x + y * 10) + c : ℕ) : ℤ) := by
        rw [Int.floor_natCast, Int.floor_natCast]
        show (PIXEL_WIDTH : ℤ) * ((x : ℤ) + (y : ℤ) * ((10 : ℕ) : ℤ)) + (c : ℤ) = _
        push_cast
        ring
      rw [hcast, readAt_natCast]
      have hlt : PIXEL_WIDTH * (x + y * 10) + c < gradSrc.data.length := by
        simp only [gradSrc, gradData, List.length_map, List.length_range, PIXEL_WIDTH]
        omega
      rw [List.getD_eq_getElem?_getD, List.getElem?_eq_getElem hlt]
      rfl
    · rw [pixel_value_of_some gradSrc T8 T8 x y c p hp, if_neg hin]
      have hxy : xy_in_triangle T8 ((x : ℚ), (y : ℚ)) = false := by
        unfold xy_in_triangle
        rw [hp]
        exact decide_eq_false hin
      simp [hxy]

/-- Witness for C8 at destination pixel `(0, 0)`, channel 0. -/
theorem C8_identity_mapping_witness :
    (0 : ℕ) < 10 ∧ (0 : ℕ) < 4 ∧
    ((map_triangle gradSrc T8 dst8 T8).dst.data)[PIXEL_WIDTH * (0 + 0 * 10) + 0]? =
      if xy_in_triangle T8 (((0 : ℕ) : ℚ), ((0 : ℕ) : ℚ)) then
        gradSrc.data[PIXEL_WIDTH * (0 + 0 * 10) + 0]?
      else some 255 :=
  ⟨by norm_num, by norm_num, C8_identity_mapping 0 0 0 (by norm_num) (by norm_num) (by norm_num)⟩

end ImageDistortion
